import Mathlib

/-!
Verification development for the expense-agent repository.

This file gives a shallow embedding, in Lean 4, of the core pipeline of the
repository: the two AI providers' response-parsing logic
(`app/services/ai/claude_provider.py`, `app/services/ai/openai_provider.py`),
the provider factory (`app/services/ai/factory.py`), the currency conversion
service (`app/services/currency.py`) and the expense assembly step
(`app/core/expense_processor.py`).

Modelling conventions:
- Python `float` and `Decimal` values are modelled as rationals (`ℚ`); the
  concrete constants exercised below are exactly representable, and the
  decimal-string round-trips the source performs (`Decimal(str(x))`) are the
  identity in this model.
- Network calls (`httpx` GET + `raise_for_status` + `.json()`) are modelled by
  an oracle function from the base-currency path component of the request URL
  to `Except FetchErr body`; an `Except.error` collapses every transport
  failure mode (connection error, non-2xx status, malformed body).
- Remote AI chat completions are modelled by their outcome, an
  `Except BackendErr String` holding the reply text.
- Python exceptions are modelled explicitly with `Except`: a function that can
  raise returns `Except PyErr _`, and `try/except` blocks in the source become
  `match` on that result.
- `datetime` values are modelled by their calendar date (the time-of-day part
  is never observed by the code under verification).
-/

/-! ## Characters and small string utilities -/

/-- The double-quote character. -/
def quoteChar : Char := Char.ofNat 34

/-- The single-quote character. -/
def squoteChar : Char := Char.ofNat 39

/-- The opening curly brace character. -/
def lbraceChar : Char := Char.ofNat 123

/-- The closing curly brace character. -/
def rbraceChar : Char := Char.ofNat 125

/-- The backslash character. -/
def backslashChar : Char := Char.ofNat 92

/-- A one-character string holding a double quote. -/
def qs : String := String.singleton quoteChar

/-- Python's `\s` character class (`str.strip()` whitespace set), restricted to
the ASCII members, which are the only ones the repository's inputs contain. -/
def isPyWs (c : Char) : Bool :=
  c = ' ' || c = Char.ofNat 9 || c = Char.ofNat 10 || c = Char.ofNat 13 ||
  c = Char.ofNat 11 || c = Char.ofNat 12

/-- ASCII decimal digit, Python's `\d` on the ASCII plane. -/
def isDigitChar (c : Char) : Bool := 48 ≤ c.toNat && c.toNat ≤ 57

/-- The regex class `[\d.]` used by the fallback `amount` pattern. -/
def isDigitDot (c : Char) : Bool := isDigitChar c || c = '.'

/-- The regex class `[A-Z]` used by the fallback `currency` pattern. -/
def isUpperAZ (c : Char) : Bool := 65 ≤ c.toNat && c.toNat ≤ 90

/-- Python `str.upper()` (ASCII case mapping, the only one the repository's
inputs exercise), computed characterwise so that it reduces in the kernel. -/
def pyUpper (s : String) : String := String.mk (s.data.map Char.toUpper)

/-- Python `str.lower()` (ASCII case mapping), computed characterwise. -/
def pyLower (s : String) : String := String.mk (s.data.map Char.toLower)

/-- Split a character list at every occurrence of `c` (the separator is
dropped), like Python `str.split` on a one-character separator. -/
def splitListOn (c : Char) : List Char → List (List Char)
  | [] => [[]]
  | d :: ds =>
    if d = c then [] :: splitListOn c ds
    else
      match splitListOn c ds with
      | [] => [[d]]
      | h :: t => (d :: h) :: t

/-- Drop leading Python whitespace (the `\s*` regex element). -/
def dropPyWs : List Char → List Char
  | [] => []
  | c :: cs => if isPyWs c then dropPyWs cs else c :: cs

/-- Numeric value of a list of ASCII digits, most significant first. -/
def natOfDigits (l : List Char) : Nat :=
  l.foldl (fun a c => a * 10 + (c.toNat - 48)) 0

/-- Match a literal character sequence at the head, returning the rest. -/
def matchLit : List Char → List Char → Option (List Char)
  | [], s => some s
  | _ :: _, [] => none
  | c :: cs, d :: ds => if d = c then matchLit cs ds else none

/-- Expect one specific character at the head. -/
def expectChar (c : Char) : List Char → Option (List Char)
  | [] => none
  | d :: ds => if d = c then some ds else none

/-- Take exactly `n` characters satisfying `p` (the regex `{n}` quantifier
over a one-character class). -/
def takeCount (p : Char → Bool) : Nat → List Char → Option (List Char × List Char)
  | 0, s => some ([], s)
  | _ + 1, [] => none
  | n + 1, d :: ds =>
    if p d then (takeCount p n ds).map (fun x => (d :: x.1, x.2)) else none

/-! ## Calendar dates

`datetime.strptime(s, "%Y-%m-%d")` validates the calendar; the model keeps
year/month/day with the same validity checks. -/

/-- A calendar date, the observable part of the `datetime` values the core
manipulates. -/
structure Date where
  year : Nat
  month : Nat
  day : Nat
  deriving DecidableEq, Repr

/-- Gregorian leap-year test, as `datetime` applies it. -/
def isLeapYear (y : Nat) : Bool :=
  y % 4 = 0 && (y % 100 ≠ 0 || y % 400 = 0)

/-- Days in a month, as `datetime` validates them. -/
def daysInMonth (y m : Nat) : Nat :=
  if m = 1 || m = 3 || m = 5 || m = 7 || m = 8 || m = 10 || m = 12 then 31
  else if m = 4 || m = 6 || m = 9 || m = 11 then 30
  else if isLeapYear y then 29
  else 28

/-- Zero-pad the decimal rendering of `n` to width `w`, as `str(date)` does. -/
def padNum (w n : Nat) : String :=
  let s := toString n
  String.mk (List.replicate (w - s.length) '0') ++ s

/-- `str(datetime.date)`: the ISO `YYYY-MM-DD` rendering used to build the
rate-cache key. -/
def dateStr (d : Date) : String :=
  padNum 4 d.year ++ "-" ++ padNum 2 d.month ++ "-" ++ padNum 2 d.day

/-- `datetime.strptime(s, "%Y-%m-%d")`: `%Y` takes 1–4 digits, `%m`/`%d` take
1–2 digits, the dashes are literal, the whole string must be consumed and the
calendar must be valid (year at least 1). Returns `none` where the source
raises `ValueError`. -/
def parseDateStr (s : String) : Option Date :=
  match splitListOn '-' s.data with
  | [ys, ms, ds] =>
    if ys ≠ [] ∧ ys.all isDigitChar ∧ ys.length ≤ 4 ∧
       ms ≠ [] ∧ ms.all isDigitChar ∧ ms.length ≤ 2 ∧
       ds ≠ [] ∧ ds.all isDigitChar ∧ ds.length ≤ 2 then
      let y := natOfDigits ys
      let m := natOfDigits ms
      let d := natOfDigits ds
      if 1 ≤ y ∧ 1 ≤ m ∧ m ≤ 12 ∧ 1 ≤ d ∧ d ≤ daysInMonth y m then
        some ⟨y, m, d⟩
      else none
    else none
  | _ => none

/-! ## JSON values

The providers expect a single flat JSON object whose values are scalars
(number, string, boolean, null); `jsonLoads` below models `json.loads` on
that fragment (nested objects/arrays and `\uXXXX` escapes are outside the
modelled fragment and make the parse fail). -/

/-- A scalar JSON value as delivered by `json.loads` on the modelled
fragment. -/
inductive JVal where
  | num (q : ℚ)
  | str (s : String)
  | bool (b : Bool)
  | null
  deriving DecidableEq, Repr

/-- First-match association lookup; parsers below keep keys unique
(last-write-wins on duplicates), matching Python `dict` semantics. -/
def assocGet {α : Type} : List (String × α) → String → Option α
  | [], _ => none
  | (k, v) :: rest, key => if k = key then some v else assocGet rest key

/-- Insert-or-replace for an association list, matching Python `dict`
assignment. -/
def insertKV {α : Type} : List (String × α) → String → α → List (String × α)
  | [], k, v => [(k, v)]
  | (k', v') :: rest, k, v =>
    if k' = k then (k, v) :: rest else (k', v') :: insertKV rest k v

/-- `float(s)` on the decimal strings the repository can feed it: an optional
sign, then digits with at most one dot and at least one digit. (Exponents,
`inf`/`nan` and surrounding whitespace are outside the modelled fragment.)
Returns `none` where `float` raises `ValueError`. -/
def pyFloatOfString (s : String) : Option ℚ :=
  let l :=
    match s.data with
    | c :: cs => if c = '-' || c = '+' then (c == '-', cs) else (false, s.data)
    | [] => (false, [])
  let neg := l.1
  let body := l.2
  if body.all isDigitDot ∧ (body.filter (· = '.')).length ≤ 1 ∧
     body.any isDigitChar then
    let intPart := body.takeWhile (· ≠ '.')
    let fracPart := (body.dropWhile (· ≠ '.')).drop 1
    let mag : ℚ := (natOfDigits intPart : ℚ) +
      (natOfDigits fracPart : ℚ) / ((10 : ℚ) ^ fracPart.length)
    some (if neg then -mag else mag)
  else none

/-- Python `float(x)` on a JSON scalar: numbers pass through, booleans become
0/1, numeric strings are parsed, everything else raises. -/
def pyFloat : JVal → Except Unit ℚ
  | JVal.num q => Except.ok q
  | JVal.bool b => Except.ok (if b then 1 else 0)
  | JVal.str s =>
    match pyFloatOfString s with
    | some q => Except.ok q
    | none => Except.error ()
  | JVal.null => Except.error ()

/-- Python `x.upper()` on a JSON scalar: only strings have `.upper`; anything
else raises `AttributeError`. -/
def upperOfJVal : JVal → Except Unit String
  | JVal.str s => Except.ok (pyUpper s)
  | _ => Except.error ()

/-! ## The fallback regex patterns

`re.search` returns the leftmost match. Each pattern used by
`_parse_fallback` (identical in both providers) is deterministic — its
quantified pieces are single-character classes disjoint from the following
literal — so a leftmost scan with maximal-munch pieces is exactly Python's
semantics for these patterns. -/

/-- Try the whole text, then every proper suffix, returning the first success:
`re.search`'s leftmost-match scan. -/
def scanFirst {α : Type} (f : List Char → Option α) : List Char → Option α
  | [] => f []
  | s@(_ :: tl) =>
    match f s with
    | some a => some a
    | none => scanFirst f tl

/-- Key–colon prefix shared by all five fallback patterns:
`"key"\s*:\s*`. -/
def matchKeyColon (key : String) (s : List Char) : Option (List Char) :=
  match matchLit (qs ++ key ++ qs).data s with
  | none => none
  | some r1 =>
    expectChar ':' (dropPyWs r1) |>.map dropPyWs

/-- `"amount"\s*:\s*([\d.]+)` at the head. -/
def tryAmountAt (s : List Char) : Option (List Char) :=
  match matchKeyColon "amount" s with
  | none => none
  | some r =>
    let run := r.takeWhile isDigitDot
    if run.isEmpty then none else some run

/-- `"currency"\s*:\s*"([A-Z]{3})"` at the head. -/
def tryCurrencyAt (s : List Char) : Option (List Char) :=
  match matchKeyColon "currency" s with
  | none => none
  | some r =>
    match expectChar quoteChar r with
    | none => none
    | some r1 =>
      match takeCount isUpperAZ 3 r1 with
      | none => none
      | some (cap, r2) => (expectChar quoteChar r2).map (fun _ => cap)

/-- `"date"\s*:\s*"(\d{4}-\d{2}-\d{2})"` at the head. -/
def tryDateAt (s : List Char) : Option (List Char) :=
  match matchKeyColon "date" s with
  | none => none
  | some r =>
    match expectChar quoteChar r with
    | none => none
    | some r1 =>
      match takeCount isDigitChar 4 r1 with
      | none => none
      | some (y, r2) =>
        match expectChar '-' r2 with
        | none => none
        | some r3 =>
          match takeCount isDigitChar 2 r3 with
          | none => none
          | some (m, r4) =>
            match expectChar '-' r4 with
            | none => none
            | some r5 =>
              match takeCount isDigitChar 2 r5 with
              | none => none
              | some (d, r6) =>
                (expectChar quoteChar r6).map
                  (fun _ => y ++ '-' :: m ++ '-' :: d)

/-- `"key"\s*:\s*"([^"]+)"` at the head (the `description` and
`category_name` patterns). -/
def tryQuotedAt (key : String) (s : List Char) : Option (List Char) :=
  match matchKeyColon key s with
  | none => none
  | some r =>
    match expectChar quoteChar r with
    | none => none
    | some r1 =>
      let run := r1.takeWhile (· ≠ quoteChar)
      if run.isEmpty then none
      else (expectChar quoteChar (r1.drop run.length)).map (fun _ => run)

/-- `re.search(r'"amount"\s*:\s*([\d.]+)', t)`, captured group. -/
def findAmount (t : String) : Option String :=
  (scanFirst tryAmountAt t.data).map String.mk

/-- `re.search(r'"currency"\s*:\s*"([A-Z]{3})"', t)`, captured group. -/
def findCurrency (t : String) : Option String :=
  (scanFirst tryCurrencyAt t.data).map String.mk

/-- `re.search(r'"date"\s*:\s*"(\d{4}-\d{2}-\d{2})"', t)`, captured group. -/
def findDate (t : String) : Option String :=
  (scanFirst tryDateAt t.data).map String.mk

/-- `re.search(r'"description"\s*:\s*"([^"]+)"', t)`, captured group. -/
def findDesc (t : String) : Option String :=
  (scanFirst (tryQuotedAt "description") t.data).map String.mk

/-- `re.search(r'"category_name"\s*:\s*"([^"]+)"', t)`, captured group. -/
def findCategory (t : String) : Option String :=
  (scanFirst (tryQuotedAt "category_name") t.data).map String.mk

/-- `\{[^}]+\}` at the head: an opening brace, one or more non-`}`
characters, a closing brace (`re.DOTALL` is irrelevant: the pattern has no
dot). -/
def tryBraceAt (s : List Char) : Option (List Char) :=
  match expectChar lbraceChar s with
  | none => none
  | some r =>
    let run := r.takeWhile (· ≠ rbraceChar)
    if run.isEmpty then none
    else (expectChar rbraceChar (r.drop run.length)).map
      (fun _ => lbraceChar :: run ++ [rbraceChar])

/-- `re.search(r'\{[^}]+\}', t, re.DOTALL)`, whole match (`group(0)`):
ClaudeProvider's JSON-extraction step. -/
def findBrace (t : String) : Option String :=
  (scanFirst tryBraceAt t.data).map String.mk

/-! ## `json.loads` on the modelled fragment -/

/-- JSON structural whitespace. -/
def isJsonWs (c : Char) : Bool :=
  c = ' ' || c = Char.ofNat 9 || c = Char.ofNat 10 || c = Char.ofNat 13

/-- Drop leading JSON whitespace. -/
def skipJWs (s : List Char) : List Char := s.dropWhile isJsonWs

/-- One-character JSON string escapes (`\uXXXX` is outside the modelled
fragment). -/
def jsonUnescape (e : Char) : Option Char :=
  if e = quoteChar then some quoteChar
  else if e = backslashChar then some backslashChar
  else if e = '/' then some '/'
  else if e = 'n' then some (Char.ofNat 10)
  else if e = 't' then some (Char.ofNat 9)
  else if e = 'r' then some (Char.ofNat 13)
  else if e = 'b' then some (Char.ofNat 8)
  else if e = 'f' then some (Char.ofNat 12)
  else none

/-- Body of a JSON string after the opening quote: characters up to the
closing quote, decoding escapes. -/
def jStrBody : List Char → Option (List Char × List Char)
  | [] => none
  | c :: cs =>
    if c = quoteChar then some ([], cs)
    else if c = backslashChar then
      match cs with
      | [] => none
      | e :: cs' =>
        match jsonUnescape e with
        | none => none
        | some c' => (jStrBody cs').map (fun x => (c' :: x.1, x.2))
    else (jStrBody cs).map (fun x => (c :: x.1, x.2))

/-- A JSON string token (opening quote expected at the head). -/
def parseJString (s : List Char) : Option (String × List Char) :=
  match expectChar quoteChar s with
  | none => none
  | some r => (jStrBody r).map (fun x => (String.mk x.1, x.2))

/-- A JSON number token: optional minus, an integer part without leading
zeros, optional fraction, optional exponent. -/
def parseJNumber (s : List Char) : Option (ℚ × List Char) :=
  let (neg, r0) :=
    match s with
    | c :: cs => if c = '-' then (true, cs) else (false, s)
    | [] => (false, s)
  let intDs := r0.takeWhile isDigitChar
  let r1 := r0.drop intDs.length
  if intDs.isEmpty then none
  else if intDs.length > 1 ∧ intDs.headD '0' = '0' then none
  else
    let (fracDs, r2) :=
      match r1 with
      | c :: cs =>
        if c = '.' then (cs.takeWhile isDigitChar, (cs.dropWhile isDigitChar))
        else ([], r1)
      | [] => ([], r1)
    if r1 ≠ [] ∧ r1.headD ' ' = '.' ∧ fracDs.isEmpty then none
    else
      let (expOk, expVal, r3) :=
        match r2 with
        | c :: cs =>
          if c = 'e' ∨ c = 'E' then
            let (esign, cs') :=
              match cs with
              | d :: ds => if d = '-' then ((-1 : ℤ), ds)
                           else if d = '+' then ((1 : ℤ), ds)
                           else ((1 : ℤ), cs)
              | [] => ((1 : ℤ), cs)
            let eds := cs'.takeWhile isDigitChar
            if eds.isEmpty then (false, (0 : ℤ), r2)
            else (true, esign * (natOfDigits eds : ℤ), cs'.drop eds.length)
          else (true, (0 : ℤ), r2)
        | [] => (true, (0 : ℤ), r2)
      if expOk then
        let mag : ℚ := ((natOfDigits intDs : ℚ) +
          (natOfDigits fracDs : ℚ) / ((10 : ℚ) ^ fracDs.length)) *
          ((10 : ℚ) ^ expVal)
        some ((if neg then -mag else mag), r3)
      else none

/-- A scalar JSON value token. -/
def parseJValue (s : List Char) : Option (JVal × List Char) :=
  match s with
  | [] => none
  | c :: _ =>
    if c = quoteChar then
      (parseJString s).map (fun x => (JVal.str x.1, x.2))
    else if c = '-' ∨ isDigitChar c then
      (parseJNumber s).map (fun x => (JVal.num x.1, x.2))
    else
      match matchLit "true".data s with
      | some r => some (JVal.bool true, r)
      | none =>
        match matchLit "false".data s with
        | some r => some (JVal.bool false, r)
        | none =>
          match matchLit "null".data s with
          | some r => some (JVal.null, r)
          | none => none

/-- Members of a JSON object, positioned at the start of a key; duplicate
keys overwrite (Python `dict` last-write-wins). -/
def parseMembers (acc : List (String × JVal)) :
    Nat → List Char → Option (List (String × JVal) × List Char)
  | 0, _ => none
  | _ + 1, [] => none
  | fuel + 1, s =>
    match parseJString s with
    | none => none
    | some (k, r1) =>
      match expectChar ':' (skipJWs r1) with
      | none => none
      | some r2 =>
        match parseJValue (skipJWs r2) with
        | none => none
        | some (v, r3) =>
          let acc' := insertKV acc k v
          match skipJWs r3 with
          | c :: r4 =>
            if c = ',' then parseMembers acc' fuel (skipJWs r4)
            else if c = rbraceChar then some (acc', r4)
            else none
          | [] => none

/-- `json.loads` on the modelled fragment: one flat object of scalar values,
with surrounding whitespace, consumed to the end of the string. Returns
`none` where `json.loads` raises `JSONDecodeError`. -/
def jsonLoads (t : String) : Option (List (String × JVal)) :=
  match expectChar lbraceChar (skipJWs t.data) with
  | none => none
  | some r1 =>
    match skipJWs r1 with
    | [] => none
    | c :: r2 =>
      if c = rbraceChar then
        if (skipJWs r2).isEmpty then some [] else none
      else
        match parseMembers [] (r1.length + 1) (skipJWs r1) with
        | none => none
        | some (kvs, rest) =>
          if (skipJWs rest).isEmpty then some kvs else none

/-! ## AI providers: `claude_provider.py` / `openai_provider.py` -/

/-- The transient analysis record (`app/services/ai/base.py`, `ExpenseData`).
It is a plain dataclass: `description` and `category_name` are stored as
whatever JSON value the reply carried, without coercion. -/
structure ExpenseData where
  amount : ℚ
  currency : String
  description : JVal
  date : Date
  category_name : JVal
  deriving DecidableEq, Repr

/-- Errors `analyze_expense` can surface to its caller. -/
inductive AErr where
  /-- The `ValueError` raised before the remote request when neither text nor
  image is truthy. -/
  | inputError
  /-- `Exception("Failed to analyze expense: ...")` re-raised by the
  catch-all handler around the provider's try block. -/
  | analysisError
  /-- A raw `ValueError` escaping OpenAI's `_parse_fallback` (raised inside
  the `except json.JSONDecodeError` handler, hence not wrapped). -/
  | valueError
  deriving DecidableEq, Repr

/-- `float(data.get("amount", 0.0))`. -/
def amountOfKvs (kvs : List (String × JVal)) : Except Unit ℚ :=
  match assocGet kvs "amount" with
  | none => Except.ok (0 : ℚ)
  | some v => pyFloat v

/-- `data.get("currency", "EUR").upper()`. -/
def currencyOfKvs (kvs : List (String × JVal)) : Except Unit String :=
  match assocGet kvs "currency" with
  | none => Except.ok "EUR"
  | some v => upperOfJVal v

/-- Shared construction of `ExpenseData` from a parsed JSON dict (the bodies
of both providers after `data = json.loads(...)`), see `amountOfKvs` and
`currencyOfKvs`; the date is `strptime(data.get("date", ""), "%Y-%m-%d")`
with `ValueError`/`TypeError` defaulting to `now`; `description` and
`category_name` default to their placeholders. Returns `Except.error` where
the Python expression raises. -/
def buildED (kvs : List (String × JVal)) (now : Date) : Except Unit ExpenseData := do
  let amount ← amountOfKvs kvs
  let currency ← currencyOfKvs kvs
  let dateV :=
    match assocGet kvs "date" with
    | some (JVal.str s) => (parseDateStr s).getD now
    | _ => now
  Except.ok
    { amount := amount
      currency := currency
      description := (assocGet kvs "description").getD (JVal.str "Expense")
      date := dateV
      category_name := (assocGet kvs "category_name").getD (JVal.str "Otros") }

/-- `float(amount_match.group(1))` when the amount pattern matched, else the
0.0 default. -/
def fallbackAmount (t : String) : Except Unit ℚ :=
  match findAmount t with
  | none => Except.ok (0 : ℚ)
  | some s =>
    match pyFloatOfString s with
    | some q => Except.ok q
    | none => Except.error ()

/-- `_parse_fallback` (textually identical in both providers): five
independent `re.search` calls with per-field defaults; `float` on the
captured amount can raise (see `fallbackAmount`), everything else is
total. -/
def parseFallback (t : String) (now : Date) : Except Unit ExpenseData := do
  let amount ← fallbackAmount t
  let dateV :=
    match findDate t with
    | some s => (parseDateStr s).getD now
    | none => now
  Except.ok
    { amount := amount
      currency := pyUpper ((findCurrency t).getD "EUR")
      description := JVal.str ((findDesc t).getD "Expense")
      date := dateV
      category_name := JVal.str ((findCategory t).getD "Otros") }

/-- ClaudeProvider's handling of the backend reply text: extract the first
`\{[^}]+\}` match and `json.loads` it; if no match, run `_parse_fallback`.
All exceptions inside the try block — including a `json.loads` failure on the
extracted substring and a `float` failure inside the fallback — are caught by
`except Exception` and re-raised as an analysis error. -/
def claudeHandleReply (t : String) (now : Date) : Except AErr ExpenseData :=
  match findBrace t with
  | some s =>
    match jsonLoads s with
    | some kvs => (buildED kvs now).mapError (fun _ => AErr.analysisError)
    | none => Except.error AErr.analysisError
  | none => (parseFallback t now).mapError (fun _ => AErr.analysisError)

/-- OpenAIProvider's handling of the backend reply text: `json.loads` on the
full reply; on `JSONDecodeError`, run `_parse_fallback` (a `float` failure
inside that handler escapes as a raw `ValueError`); other exceptions in the
try block are re-raised as an analysis error. -/
def openaiHandleReply (t : String) (now : Date) : Except AErr ExpenseData :=
  match jsonLoads t with
  | some kvs => (buildED kvs now).mapError (fun _ => AErr.analysisError)
  | none => (parseFallback t now).mapError (fun _ => AErr.valueError)

/-- Python truthiness of the optional `text` argument (`None` and `""` are
falsy). -/
def truthyText : Option String → Bool
  | none => false
  | some s => !s.isEmpty

/-- Python truthiness of the optional `image` argument (`None` and `b""` are
falsy). -/
def truthyImage : Option (List Nat) → Bool
  | none => false
  | some b => !b.isEmpty

/-- `ClaudeProvider.analyze_expense`: the input check `if not any([text,
image])` raises `ValueError` before the remote request; otherwise one backend
request is issued (its outcome is the `reply` oracle) and the reply text is
parsed. The second component counts remote backend requests issued. -/
def claudeAnalyze (text : Option String) (image : Option (List Nat))
    (reply : Except Unit String) (now : Date) : Except AErr ExpenseData × Nat :=
  if !(truthyText text || truthyImage image) then
    (Except.error AErr.inputError, 0)
  else
    match reply with
    | Except.error _ => (Except.error AErr.analysisError, 1)
    | Except.ok t => (claudeHandleReply t now, 1)

/-- `OpenAIProvider.analyze_expense`: same input gate and request accounting
as `claudeAnalyze`, with OpenAI's reply handling. -/
def openaiAnalyze (text : Option String) (image : Option (List Nat))
    (reply : Except Unit String) (now : Date) : Except AErr ExpenseData × Nat :=
  if !(truthyText text || truthyImage image) then
    (Except.error AErr.inputError, 0)
  else
    match reply with
    | Except.error _ => (Except.error AErr.analysisError, 1)
    | Except.ok t => (openaiHandleReply t now, 1)

/-! ## Currency conversion service: `currency.py` -/

/-- A value inside the parsed body of a rate-table response: either a scalar
or a nested table of scalars (the `rates` mapping). -/
inductive BVal where
  | scalar (v : JVal)
  | table (t : List (String × JVal))
  deriving DecidableEq, Repr

/-- A parsed response body: the dict returned by `response.json()`. -/
abbrev Body := List (String × BVal)

/-- Transport failure for one rate-table request: connection error, non-2xx
status (`raise_for_status`), or a body `.json()` cannot parse. -/
inductive FetchErr where
  | netError
  | badStatus (code : Nat)
  | badBody
  deriving DecidableEq, Repr

/-- The network oracle: the outcome of one GET to
`BASE_URL/latest/{base}` followed by `raise_for_status` and `.json()`,
keyed by the `{base}` path component. -/
def Net : Type := String → Except FetchErr Body

/-- The in-memory rate cache `self._cache`, keys as Python builds them. -/
abbrev Cache := List (String × JVal)

/-- `f"{from_currency}_{to_currency}_{expense_date}"`: the cache key uses the
raw (not uppercased) currency arguments and the ISO date rendering. -/
def cacheKey (fromC toC : String) (d : Date) : String :=
  fromC ++ "_" ++ toC ++ "_" ++ dateStr d

/-- Python `x != 0` on a JSON scalar (`False == 0` holds in Python; strings
and `None` compare unequal to `0` without raising). -/
def pyEqZero : JVal → Bool
  | JVal.num q => q = 0
  | JVal.bool b => !b
  | _ => false

/-- A JSON scalar usable in Python arithmetic (`/`): numbers and booleans;
anything else raises `TypeError`. -/
def asArith : JVal → Option ℚ
  | JVal.num q => some q
  | JVal.bool b => some (if b then 1 else 0)
  | _ => none

/-- `CurrencyService._fetch_rate(base, target)`:
`data.get("rates", {}).get(target.upper(), 1.0)` after the GET; a missing
`rates` key defaults the whole lookup to 1.0, a non-dict `rates` value makes
`.get` raise `AttributeError` (`Except.error`). -/
def fetchRate (net : Net) (base target : String) : Except Unit JVal :=
  match net (pyUpper base) with
  | Except.error _ => Except.error ()
  | Except.ok data =>
    match assocGet data "rates" with
    | none => Except.ok (JVal.num 1)
    | some (BVal.table kvs) =>
      Except.ok ((assocGet kvs (pyUpper target)).getD (JVal.num 1))
    | some (BVal.scalar _) => Except.error ()

/-- `CurrencyService._get_direct_rate`: USD-bridged rate `to/from` from two
single-currency lookups, each skipped when the currency already is USD; any
exception (failed fetch, non-numeric operand of `/`) is caught and yields
1.0. The second component lists the base-currency path components of the
network requests issued. -/
def getDirectRate (net : Net) (fromC toC : String) : JVal × List String :=
  let fromStep :=
    if pyUpper fromC = "USD" then (Except.ok (JVal.num 1), ([] : List String))
    else (fetchRate net "USD" fromC, ["USD"])
  match fromStep with
  | (Except.error _, c1) => (JVal.num 1, c1)
  | (Except.ok fr, c1) =>
    let toStep :=
      if pyUpper toC = "USD" then (Except.ok (JVal.num 1), ([] : List String))
      else (fetchRate net "USD" toC, ["USD"])
    match toStep with
    | (Except.error _, c2) => (JVal.num 1, c1 ++ c2)
    | (Except.ok tr, c2) =>
      if pyEqZero fr then (JVal.num 1, c1 ++ c2)
      else
        match asArith tr, asArith fr with
        | some a, some b => (JVal.num (a / b), c1 ++ c2)
        | _, _ => (JVal.num 1, c1 ++ c2)

/-- `CurrencyService.get_exchange_rate`: date defaulting, cache lookup keyed
by `cacheKey`, one direct rate-table request on a miss (caching the extracted
rate), the USD-bridging fallback when the body has no `rates` key, and the
catch-all that turns every exception inside the try block into an uncached
1.0. Total by construction: the source's `except Exception` guarantees no
exception escapes. Returns (rate, updated cache, network requests issued). -/
def getExchangeRate (net : Net) (cache : Cache) (today : Date)
    (fromC toC : String) (dOpt : Option Date) : JVal × Cache × List String :=
  let d := dOpt.getD today
  let key := cacheKey fromC toC d
  match assocGet cache key with
  | some r => (r, cache, [])
  | none =>
    match net (pyUpper fromC) with
    | Except.error _ => (JVal.num 1, cache, [pyUpper fromC])
    | Except.ok data =>
      match assocGet data "rates" with
      | some (BVal.table kvs) =>
        let rate := (assocGet kvs (pyUpper toC)).getD (JVal.num 1)
        (rate, insertKV cache key rate, [pyUpper fromC])
      | some (BVal.scalar _) => (JVal.num 1, cache, [pyUpper fromC])
      | none =>
        let bridged := getDirectRate net fromC toC
        (bridged.1, cache, pyUpper fromC :: bridged.2)

/-- `Decimal(str(rate))` on a cached/returned rate value: floats pass
through (their `str` rendering round-trips in this model), numeric strings
parse, anything else raises `InvalidOperation`. -/
def decimalOfJVal : JVal → Option ℚ
  | JVal.num q => some q
  | JVal.str s => pyFloatOfString s
  | _ => none

/-- `CurrencyService.convert`: `to_currency` defaults to the configured base
currency, `expense_date` to today; equal currencies (case-insensitive) return
the amount with no rate lookup; otherwise the amount is multiplied by the
looked-up rate (`Decimal(str(amount * Decimal(str(rate))))`, exact in this
model). Returns (result or raised exception, updated cache, network requests
issued). -/
def convert (net : Net) (cache : Cache) (today : Date) (base : String)
    (amount : ℚ) (fromC : String) (toOpt : Option String) (dOpt : Option Date) :
    Except Unit ℚ × Cache × List String :=
  let toC := toOpt.getD base
  if pyUpper fromC = pyUpper toC then (Except.ok amount, cache, [])
  else
    let d := dOpt.getD today
    let r := getExchangeRate net cache today fromC toC (some d)
    match decimalOfJVal r.1 with
    | some q => (Except.ok (amount * q), r.2.1, r.2.2)
    | none => (Except.error (), r.2.1, r.2.2)

/-! ## Expense assembly: `expense_processor.py` -/

/-- The `Expense` row as `ExpenseProcessor.process_expense` constructs it
(`Expense(amount=..., currency=..., converted_amount=..., base_currency=...,
description=..., date=..., category_id=...)`); the category reference is kept
as the resolved name, the database id being the persistence collaborator's
concern. -/
structure ExpenseRecord where
  amount : ℚ
  currency : String
  converted_amount : ℚ
  base_currency : String
  description : JVal
  date : Date
  category_name : JVal
  deriving DecidableEq, Repr

/-- The conversion-and-assembly stage of `ExpenseProcessor.process_expense`
(lines 53–78): `amount = Decimal(str(expense_data.amount))` (exact here),
conversion attempted only when the uppercased extracted currency differs from
the uppercased base currency, any exception from `convert` caught and the
unconverted amount used, then the record is built with uppercased currency
codes. Returns the constructed record and the rate cache after the run. -/
def processExpense (net : Net) (cache : Cache) (today : Date) (base : String)
    (ed : ExpenseData) : ExpenseRecord × Cache :=
  let amount := ed.amount
  let step :=
    if pyUpper ed.currency ≠ pyUpper base then
      match convert net cache today base amount ed.currency (some base) (some ed.date) with
      | (Except.ok c, c', _) => (c, c')
      | (Except.error _, c', _) => (amount, c')
    else (amount, cache)
  ({ amount := amount
     currency := pyUpper ed.currency
     converted_amount := step.1
     base_currency := pyUpper base
     description := ed.description
     date := ed.date
     category_name := ed.category_name }, step.2)

/-! ## Provider factory: `factory.py` -/

/-- The two provider variants. -/
inductive ProviderTag where
  | openai
  | claude
  deriving DecidableEq, Repr

/-- Python `s.strip(chars)`: drop characters satisfying `p` from both
ends. -/
def pyStrip (p : Char → Bool) (s : String) : String :=
  String.mk (((s.data.dropWhile p).reverse.dropWhile p).reverse)

/-- The sanitization `create_ai_provider` applies to the configured
`AI_PROVIDER` value: lowercase, strip whitespace, cut at the first `#` and
strip again, then strip surrounding single/double quotes. -/
def sanitizeProviderName (raw : String) : String :=
  let s1 := pyStrip isPyWs (pyLower raw)
  let s2 :=
    if s1.data.contains '#' then
      pyStrip isPyWs (String.mk (s1.data.takeWhile (· ≠ '#')))
    else s1
  pyStrip (fun c => c = quoteChar || c = squoteChar) s2

/-- `create_ai_provider`: match the sanitized name against the two known
identifiers, raising `ValueError` (`Except.error` with the message) on
anything else. -/
def createAIProvider (raw : String) : Except String ProviderTag :=
  let p := sanitizeProviderName raw
  if p = "openai" then Except.ok ProviderTag.openai
  else if p = "claude" then Except.ok ProviderTag.claude
  else
    Except.error ("Unknown AI provider: " ++ String.singleton squoteChar ++ p ++
      String.singleton squoteChar ++ ". Use " ++ String.singleton squoteChar ++
      "openai" ++ String.singleton squoteChar ++ " or " ++
      String.singleton squoteChar ++ "claude" ++ String.singleton squoteChar)

/-! ## Concrete inputs exercised by the theorems -/

/-- The spec's prose-wrapped backend reply example. -/
def sureReply : String :=
  "Sure! \x7b\"amount\": 12.5, \"currency\": \"usd\", \"description\": \"Coffee\", \"date\": \"2024-03-01\", \"category_name\": \"Comida\"\x7d"

/-- A malformed non-JSON reply containing only the `amount` and
`category_name` loose substrings. -/
def looseReply : String :=
  "no json here, \"amount\": 7.0 and \"category_name\": \"Transporte\" end"

/-- A reply holding a brace-delimited fragment that is not valid JSON. -/
def badBraceReply : String := "\x7b\"amount\": oops\x7d"

/-- A fixed current date used by the concrete evaluations. -/
def d0 : Date := ⟨2025, 6, 15⟩

/-- A network oracle on which every request fails. -/
def netFail : Net := fun _ => Except.error FetchErr.netError

/-- Rate-table oracle: latest rates for base EUR quote USD at 1.1. -/
def netEurUsd : Net := fun b =>
  if b = "EUR" then Except.ok [("rates", BVal.table [("USD", JVal.num (11 / 10))])]
  else Except.error FetchErr.netError

/-- Rate-table oracle answering for the four-letter code EURO with an EUR
rate of 1.2345. -/
def netEuro : Net := fun b =>
  if b = "EURO" then Except.ok [("rates", BVal.table [("EUR", JVal.num (12345 / 10000))])]
  else Except.error FetchErr.netError

/-- An analysis result carrying a four-letter currency code and an amount
whose conversion product needs six decimal places. -/
def edEuro : ExpenseData :=
  ⟨1001 / 100, "EURO", JVal.str "Taxi", ⟨2024, 3, 1⟩, JVal.str "Transporte"⟩

/-- The raw configured provider value of the factory example. -/
def rawClaudeValue : String := qs ++ "claude" ++ qs ++ "  # my provider"

/-! ## Helper lemmas -/

theorem assocGet_insertKV_self {α : Type} (l : List (String × α)) (k : String) (v : α) :
    assocGet (insertKV l k v) k = some v := by
  induction l with
  | nil => simp [insertKV, assocGet]
  | cons hd tl ih =>
    obtain ⟨k', v'⟩ := hd
    by_cases h : k' = k <;> simp [insertKV, assocGet, h, ih]

theorem buildED_ok_of (kvs : List (String × JVal)) (now : Date) (a : ℚ)
    (cur : String) (hA : amountOfKvs kvs = Except.ok a)
    (hC : currencyOfKvs kvs = Except.ok cur) :
    buildED kvs now = Except.ok
      { amount := a
        currency := cur
        description := (assocGet kvs "description").getD (JVal.str "Expense")
        date := match assocGet kvs "date" with
                | some (JVal.str s) => (parseDateStr s).getD now
                | _ => now
        category_name := (assocGet kvs "category_name").getD (JVal.str "Otros") } := by
  unfold buildED
  rw [hA, hC]
  with_unfolding_all rfl

theorem buildED_err_of (kvs : List (String × JVal)) (now : Date) (u : Unit)
    (hA : amountOfKvs kvs = Except.error u) :
    buildED kvs now = Except.error u := by
  unfold buildED
  rw [hA]
  with_unfolding_all rfl

theorem parseFallback_ok_of (t : String) (now : Date) (a : ℚ)
    (hA : fallbackAmount t = Except.ok a) :
    parseFallback t now = Except.ok
      { amount := a
        currency := pyUpper ((findCurrency t).getD "EUR")
        description := JVal.str ((findDesc t).getD "Expense")
        date := match findDate t with
                | some s => (parseDateStr s).getD now
                | none => now
        category_name := JVal.str ((findCategory t).getD "Otros") } := by
  unfold parseFallback
  rw [hA]
  with_unfolding_all rfl

theorem parseFallback_err_of (t : String) (now : Date) (u : Unit)
    (hA : fallbackAmount t = Except.error u) :
    parseFallback t now = Except.error u := by
  unfold parseFallback
  rw [hA]
  with_unfolding_all rfl

/-! ## Claims -/

/-- C9: with both `text` and `image` absent, `analyze_expense` of either
provider fails with the input `ValueError` and issues no remote backend
request (request count 0). -/
theorem analyze_requires_input (reply : Except Unit String) (now : Date) :
    claudeAnalyze none none reply now = (Except.error AErr.inputError, 0) ∧
    openaiAnalyze none none reply now = (Except.error AErr.inputError, 0) :=
  ⟨rfl, rfl⟩

/-- C5: when the source and target currencies agree case-insensitively (the
target defaulting to the base currency), `convert` returns the amount
unchanged, leaves the cache untouched and performs no network request. -/
theorem convert_same_currency_no_lookup (net : Net) (cache : Cache)
    (today : Date) (base : String) (amount : ℚ) (fromC : String)
    (toOpt : Option String) (dOpt : Option Date)
    (h : pyUpper fromC = pyUpper (toOpt.getD base)) :
    convert net cache today base amount fromC toOpt dOpt =
      (Except.ok amount, cache, []) := by
  simp [convert, h]

/-- Witness for C5 at a concrete input: converting 5 from "eur" with the
target defaulted to base "EUR". -/
theorem convert_same_currency_no_lookup_witness :
    convert netFail [] d0 "EUR" 5 "eur" none none = (Except.ok 5, [], []) :=
  convert_same_currency_no_lookup netFail [] d0 "EUR" 5 "eur" none none (by decide)

/-- C8: `create_ai_provider` is a function of the sanitized configuration
value — lowercased, stripped, cut at an inline `#`, quotes stripped — mapping
"openai" and "claude" to their providers and failing on every other sanitized
value; the raw value `"claude"  # my provider` selects the Claude variant. -/
theorem createAIProvider_sanitized_selection :
    (∀ s, sanitizeProviderName s = "openai" →
      createAIProvider s = Except.ok ProviderTag.openai) ∧
    (∀ s, sanitizeProviderName s = "claude" →
      createAIProvider s = Except.ok ProviderTag.claude) ∧
    (∀ s, sanitizeProviderName s ≠ "openai" → sanitizeProviderName s ≠ "claude" →
      (createAIProvider s).isOk = false) ∧
    sanitizeProviderName rawClaudeValue = "claude" ∧
    createAIProvider rawClaudeValue = Except.ok ProviderTag.claude := by
  refine ⟨fun s h => by simp [createAIProvider, h],
          fun s h => by simp [createAIProvider, h],
          fun s h1 h2 => by simp [createAIProvider, h1, h2, Except.isOk, Except.toBool],
          by decide, by rfl⟩

/-- C4: `get_exchange_rate` never raises (the embedding is total: the
source's catch-all `except` maps every exception inside the try block to a
plain return); in particular, whenever the remote rate lookup fails in any
way — the oracle collapses network errors, non-2xx statuses and malformed
bodies into `Except.error` — the call returns the numeric default 1.0,
leaving the cache untouched. -/
theorem getExchangeRate_failure_returns_one (net : Net) (cache : Cache)
    (today : Date) (fromC toC : String) (dOpt : Option Date) (e : FetchErr)
    (h1 : assocGet cache (cacheKey fromC toC (dOpt.getD today)) = none)
    (h2 : net (pyUpper fromC) = Except.error e) :
    getExchangeRate net cache today fromC toC dOpt =
      (JVal.num 1, cache, [pyUpper fromC]) := by
  simp [getExchangeRate, h1, h2]

/-- Witness for C4: a network oracle on which every request fails. -/
theorem getExchangeRate_failure_returns_one_witness :
    getExchangeRate netFail [] d0 "EUR" "USD" none =
      (JVal.num 1, [], [pyUpper "EUR"]) :=
  getExchangeRate_failure_returns_one netFail [] d0 "EUR" "USD" none
    FetchErr.netError rfl rfl

/-- C6: `get_exchange_rate` is cached by the (from, to, date) key: a hit
returns the cached rate with no network request; a miss answered by a body
with a `rates` table extracts the target's rate (1.0 when absent), stores it
and returns it, and the immediately following identical call is served from
the cache with no network request; concretely, a rates table carrying USD
at 1.1 for base EUR makes `convert(100, "EUR", "USD")` return 110, and the
second identical call performs no request. -/
theorem getExchangeRate_cached_by_key :
    (∀ (net : Net) (cache : Cache) (today : Date) (fromC toC : String)
       (dOpt : Option Date) (r : JVal),
       assocGet cache (cacheKey fromC toC (dOpt.getD today)) = some r →
       getExchangeRate net cache today fromC toC dOpt = (r, cache, [])) ∧
    (∀ (net : Net) (cache : Cache) (today : Date) (fromC toC : String)
       (dOpt : Option Date) (data : Body) (kvs : List (String × JVal)),
       assocGet cache (cacheKey fromC toC (dOpt.getD today)) = none →
       net (pyUpper fromC) = Except.ok data →
       assocGet data "rates" = some (BVal.table kvs) →
       getExchangeRate net cache today fromC toC dOpt =
         ((assocGet kvs (pyUpper toC)).getD (JVal.num 1),
          insertKV cache (cacheKey fromC toC (dOpt.getD today))
            ((assocGet kvs (pyUpper toC)).getD (JVal.num 1)),
          [pyUpper fromC]) ∧
       getExchangeRate net
           (insertKV cache (cacheKey fromC toC (dOpt.getD today))
             ((assocGet kvs (pyUpper toC)).getD (JVal.num 1)))
           today fromC toC dOpt =
         ((assocGet kvs (pyUpper toC)).getD (JVal.num 1),
          insertKV cache (cacheKey fromC toC (dOpt.getD today))
            ((assocGet kvs (pyUpper toC)).getD (JVal.num 1)),
          [])) ∧
    convert netEurUsd [] d0 "EUR" 100 "EUR" (some "USD") none =
      (Except.ok 110, [("EUR_USD_2025-06-15", JVal.num (11 / 10))], ["EUR"]) ∧
    convert netEurUsd [("EUR_USD_2025-06-15", JVal.num (11 / 10))] d0 "EUR" 100
        "EUR" (some "USD") none =
      (Except.ok 110, [("EUR_USD_2025-06-15", JVal.num (11 / 10))], []) := by
  refine ⟨fun net cache today fromC toC dOpt r h => by simp [getExchangeRate, h],
          fun net cache today fromC toC dOpt data kvs h1 h2 h3 =>
            ⟨by simp [getExchangeRate, h1, h2, h3],
             by simp [getExchangeRate, assocGet_insertKV_self]⟩,
          by with_unfolding_all rfl, by with_unfolding_all rfl⟩

/-- C10: the rate cache receives entries only from a successful direct
`rates`-table response: every run either leaves the cache unchanged or
inserts exactly the rate extracted from such a response; a failed fetch and
the bridged (`_get_direct_rate`) path never write to the cache; and any call
missing the cache issues at least one network request, so a repeated lookup
after a failed or bridged one contacts the network again. -/
theorem getExchangeRate_cache_only_direct :
    (∀ (net : Net) (cache : Cache) (today : Date) (fromC toC : String)
       (dOpt : Option Date),
       (getExchangeRate net cache today fromC toC dOpt).2.1 = cache ∨
       ∃ data kvs, net (pyUpper fromC) = Except.ok data ∧
         assocGet data "rates" = some (BVal.table kvs) ∧
         (getExchangeRate net cache today fromC toC dOpt).2.1 =
           insertKV cache (cacheKey fromC toC (dOpt.getD today))
             ((assocGet kvs (pyUpper toC)).getD (JVal.num 1))) ∧
    (∀ (net : Net) (cache : Cache) (today : Date) (fromC toC : String)
       (dOpt : Option Date) (e : FetchErr),
       net (pyUpper fromC) = Except.error e →
       (getExchangeRate net cache today fromC toC dOpt).2.1 = cache) ∧
    (∀ (net : Net) (cache : Cache) (today : Date) (fromC toC : String)
       (dOpt : Option Date) (data : Body),
       net (pyUpper fromC) = Except.ok data →
       assocGet data "rates" = none →
       (getExchangeRate net cache today fromC toC dOpt).2.1 = cache) ∧
    (∀ (net : Net) (cache : Cache) (today : Date) (fromC toC : String)
       (dOpt : Option Date),
       assocGet cache (cacheKey fromC toC (dOpt.getD today)) = none →
       (getExchangeRate net cache today fromC toC dOpt).2.2 ≠ []) := by
  refine ⟨?_, ?_, ?_, ?_⟩
  · intro net cache today fromC toC dOpt
    unfold getExchangeRate
    cases hc : assocGet cache (cacheKey fromC toC (dOpt.getD today)) with
    | some r => simp [hc]
    | none =>
      cases hn : net (pyUpper fromC) with
      | error e => simp [hc, hn]
      | ok data =>
        cases hr : assocGet data "rates" with
        | none => simp [hc, hn, hr]
        | some v =>
          cases v with
          | scalar w => simp [hc, hn, hr]
          | table kvs => exact Or.inr ⟨data, kvs, rfl, hr, by simp [hc, hr]⟩
  · intro net cache today fromC toC dOpt e hn
    unfold getExchangeRate
    cases hc : assocGet cache (cacheKey fromC toC (dOpt.getD today)) with
    | some r => simp [hc]
    | none => simp [hc, hn]
  · intro net cache today fromC toC dOpt data hn hr
    unfold getExchangeRate
    cases hc : assocGet cache (cacheKey fromC toC (dOpt.getD today)) with
    | some r => simp [hc]
    | none => simp [hc, hn, hr]
  · intro net cache today fromC toC dOpt hc
    unfold getExchangeRate
    cases hn : net (pyUpper fromC) with
    | error e => simp [hc, hn]
    | ok data =>
      cases hr : assocGet data "rates" with
      | none => simp [hc, hn, hr]
      | some v =>
        cases v with
        | scalar w => simp [hc, hn, hr]
        | table kvs => simp [hc, hn, hr]

/-- C7: in the conversion-and-assembly stage, the record is always built with
the original amount and the uppercased extracted currency (and the remaining
analysis fields unchanged), and any exception raised by the conversion layer
is absorbed: when `convert` raises, `converted_amount` falls back to the
unconverted amount, so a conversion failure never changes or blocks the
record handed to persistence. -/
theorem processExpense_absorbs_conversion_failure (net : Net) (cache : Cache)
    (today : Date) (base : String) (ed : ExpenseData) :
    (processExpense net cache today base ed).1.amount = ed.amount ∧
    (processExpense net cache today base ed).1.currency = pyUpper ed.currency ∧
    (processExpense net cache today base ed).1.base_currency = pyUpper base ∧
    (processExpense net cache today base ed).1.description = ed.description ∧
    (processExpense net cache today base ed).1.date = ed.date ∧
    (processExpense net cache today base ed).1.category_name = ed.category_name ∧
    ((convert net cache today base ed.amount ed.currency (some base)
        (some ed.date)).1 = Except.error () →
      (processExpense net cache today base ed).1.converted_amount = ed.amount) := by
  unfold processExpense
  by_cases hc : pyUpper ed.currency ≠ pyUpper base
  · rcases hcv : convert net cache today base ed.amount ed.currency (some base)
      (some ed.date) with ⟨res, c', calls⟩
    cases res with
    | ok c => simp [hc, hcv]
    | error u => simp [hc, hcv]
  · simp [hc]

/-- C1 (amended): the record stores the uppercased extracted currency and
uppercased base currency (their length is whatever the extraction produced —
the core enforces no 3-letter shape), `converted_amount` equals `amount` when
the currencies agree case-insensitively, and otherwise equals the exact
product of the amount and the decimal-parsed looked-up rate — no rounding to
the currency's minor unit is applied (conversion errors fall back to the
unconverted amount). -/
theorem processExpense_uppercase_exact_product (net : Net) (cache : Cache)
    (today : Date) (base : String) (ed : ExpenseData) :
    (processExpense net cache today base ed).1.currency = pyUpper ed.currency ∧
    (processExpense net cache today base ed).1.base_currency = pyUpper base ∧
    (pyUpper ed.currency = pyUpper base →
      (processExpense net cache today base ed).1.converted_amount = ed.amount) ∧
    (pyUpper ed.currency ≠ pyUpper base →
      ∀ q, decimalOfJVal
          (getExchangeRate net cache today ed.currency base (some ed.date)).1 =
          some q →
        (processExpense net cache today base ed).1.converted_amount =
          ed.amount * q) ∧
    (pyUpper ed.currency ≠ pyUpper base →
      decimalOfJVal
          (getExchangeRate net cache today ed.currency base (some ed.date)).1 =
          none →
        (processExpense net cache today base ed).1.converted_amount =
          ed.amount) := by
  by_cases hc : pyUpper ed.currency = pyUpper base
  · exact ⟨by simp [processExpense], by simp [processExpense],
          fun _ => by simp [processExpense, hc],
          fun h => absurd hc h, fun h => absurd hc h⟩
  · refine ⟨by simp [processExpense], by simp [processExpense], fun h => absurd h hc,
           ?_, ?_⟩
    · intro _ q hq
      simp [processExpense, convert, hc, hq]
    · intro _ hq
      simp [processExpense, convert, hc, hq]

/-- C1 counterexample: with an extracted currency of "EURO" (a valid run of
the primary JSON path) and rate 1.2345 on amount 10.01, the persisted-record
construction stores a four-letter currency code, and a `converted_amount` of
12.357345, which is not representable at the currency's two-decimal minor
unit, hence not equal to the product rounded to that precision. -/
theorem processExpense_counterexample :
    (processExpense netEuro [] d0 "EUR" edEuro).1.currency = "EURO" ∧
    (processExpense netEuro [] d0 "EUR" edEuro).1.currency.length ≠ 3 ∧
    (processExpense netEuro [] d0 "EUR" edEuro).1.converted_amount =
      2471469 / 200000 ∧
    ¬ ∃ n : ℤ, (processExpense netEuro [] d0 "EUR" edEuro).1.converted_amount =
      (n : ℚ) / 100 := by
  have h : (processExpense netEuro [] d0 "EUR" edEuro).1.converted_amount =
      2471469 / 200000 := by with_unfolding_all rfl
  refine ⟨by with_unfolding_all rfl, by with_unfolding_all decide, h, ?_⟩
  rintro ⟨n, hn⟩
  rw [h, div_eq_div_iff (by norm_num) (by norm_num)] at hn
  have h2 : (247146900 : ℤ) = n * 200000 := by exact_mod_cast hn
  omega

/-- C2 counterexample: on the prose-wrapped reply, `OpenAIProvider` does not
extract the embedded JSON object: `json.loads` on the full reply fails, the
regex fallback runs, its `[A-Z]{3}` currency pattern misses the lowercase
`"usd"`, and the returned currency is the default "EUR" — not the embedded
value normalized to "USD" with the other fields extracted, as claimed. -/
theorem openai_prose_reply_counterexample :
    openaiAnalyze (some "Coffee receipt") none (Except.ok sureReply) d0 =
      (Except.ok ⟨25 / 2, "EUR", JVal.str "Coffee", ⟨2024, 3, 1⟩,
        JVal.str "Comida"⟩, 1) ∧
    ¬ ((openaiAnalyze (some "Coffee receipt") none (Except.ok sureReply) d0).1 =
      Except.ok ⟨25 / 2, "USD", JVal.str "Coffee", ⟨2024, 3, 1⟩,
        JVal.str "Comida"⟩) := by
  have h : openaiAnalyze (some "Coffee receipt") none (Except.ok sureReply) d0 =
      (Except.ok ⟨25 / 2, "EUR", JVal.str "Coffee", ⟨2024, 3, 1⟩,
        JVal.str "Comida"⟩, 1) := by with_unfolding_all rfl
  refine ⟨h, fun hk => ?_⟩
  rw [h] at hk
  exact absurd (Except.ok.inj hk) (by with_unfolding_all decide)

/-- C2 (amended): `ClaudeProvider` extracts the first brace-delimited
substring (first `{` through the next `}` — which on a flat five-key object
is the embedded JSON), parses it, and returns the embedded fields with the
currency uppercased, as the concrete prose-wrapped reply shows;
`OpenAIProvider` instead parses the full reply as JSON and, on that same
prose-wrapped reply, falls through to the regex fallback, whose upper-case
currency pattern misses `"usd"` and defaults the currency to "EUR". -/
theorem claude_extracts_embedded_json :
    (∀ (t : String) (now : Date) (s : String) (kvs : List (String × JVal))
       (c : String) (ed : ExpenseData),
       findBrace t = some s → jsonLoads s = some kvs →
       assocGet kvs "currency" = some (JVal.str c) →
       claudeHandleReply t now = Except.ok ed →
       ed.currency = pyUpper c) ∧
    claudeAnalyze (some "Coffee receipt") none (Except.ok sureReply) d0 =
      (Except.ok ⟨25 / 2, "USD", JVal.str "Coffee", ⟨2024, 3, 1⟩,
        JVal.str "Comida"⟩, 1) ∧
    openaiAnalyze (some "Coffee receipt") none (Except.ok sureReply) d0 =
      (Except.ok ⟨25 / 2, "EUR", JVal.str "Coffee", ⟨2024, 3, 1⟩,
        JVal.str "Comida"⟩, 1) := by
  refine ⟨?_, by with_unfolding_all rfl, by with_unfolding_all rfl⟩
  intro t now s kvs c ed h1 h2 h3 h4
  simp only [claudeHandleReply, h1, h2] at h4
  cases hA : amountOfKvs kvs with
  | error u =>
    rw [buildED_err_of kvs now u hA] at h4
    simp [Except.mapError] at h4
  | ok a =>
    have hC : currencyOfKvs kvs = Except.ok (pyUpper c) := by
      simp [currencyOfKvs, h3, upperOfJVal]
    rw [buildED_ok_of kvs now a (pyUpper c) hA hC] at h4
    simp only [Except.mapError] at h4
    injection h4 with h5
    rw [← h5]

/-- C3 counterexample: a reply whose JSON parsing fails but which contains a
brace-delimited fragment makes `ClaudeProvider.analyze_expense` raise an
analysis error instead of applying the regex fallback (whose recovered value
is also shown). -/
theorem claude_braced_malformed_counterexample :
    jsonLoads badBraceReply = none ∧
    claudeAnalyze (some "text") none (Except.ok badBraceReply) d0 =
      (Except.error AErr.analysisError, 1) ∧
    parseFallback badBraceReply d0 =
      Except.ok ⟨0, "EUR", JVal.str "Expense", d0, JVal.str "Otros"⟩ := by
  exact ⟨by decide, by with_unfolding_all rfl, by with_unfolding_all rfl⟩

/-- C3 (amended): `OpenAIProvider` applies the regex fallback to every reply
whose JSON parsing fails; `ClaudeProvider` applies it only when the reply
contains no brace-delimited fragment (a malformed braced fragment raises
instead, see the counterexample); the fallback recovers each of the five
fields independently with defaults currency→"EUR", description→"Expense",
category→"Otros", amount→0.0 and date→now for the missing ones; on the
loose-substring example exactly `amount` and `category_name` are recovered
and the other three are defaulted, under both providers. -/
theorem fallback_field_recovery :
    (∀ (t : String) (now : Date), jsonLoads t = none →
      openaiHandleReply t now =
        (parseFallback t now).mapError (fun _ => AErr.valueError)) ∧
    (∀ (t : String) (now : Date), findBrace t = none →
      claudeHandleReply t now =
        (parseFallback t now).mapError (fun _ => AErr.analysisError)) ∧
    (∀ (t : String) (now : Date) (ed : ExpenseData),
      parseFallback t now = Except.ok ed →
      ed.currency = pyUpper ((findCurrency t).getD "EUR") ∧
      ed.description = JVal.str ((findDesc t).getD "Expense") ∧
      ed.category_name = JVal.str ((findCategory t).getD "Otros") ∧
      (findAmount t = none → ed.amount = 0) ∧
      (findDate t = none → ed.date = now)) ∧
    findAmount looseReply = some "7.0" ∧
    findCurrency looseReply = none ∧
    findDate looseReply = none ∧
    findDesc looseReply = none ∧
    findCategory looseReply = some "Transporte" ∧
    claudeHandleReply looseReply d0 =
      Except.ok ⟨7, "EUR", JVal.str "Expense", d0, JVal.str "Transporte"⟩ ∧
    openaiHandleReply looseReply d0 =
      Except.ok ⟨7, "EUR", JVal.str "Expense", d0, JVal.str "Transporte"⟩ := by
  refine ⟨fun t now h => by simp [openaiHandleReply, h],
          fun t now h => by simp [claudeHandleReply, h],
          ?_, by decide, by decide, by decide, by decide, by decide,
          by with_unfolding_all rfl, by with_unfolding_all rfl⟩
  intro t now ed h
  cases hA : fallbackAmount t with
  | error u =>
    rw [parseFallback_err_of t now u hA] at h
    simp at h
  | ok a =>
    rw [parseFallback_ok_of t now a hA] at h
    injection h with h5
    refine ⟨by rw [← h5], by rw [← h5], by rw [← h5], ?_, ?_⟩
    · intro hfa
      have h0 : fallbackAmount t = Except.ok 0 := by simp [fallbackAmount, hfa]
      rw [hA] at h0
      rw [← h5]
      exact Except.ok.inj h0
    · intro hfd
      rw [← h5]
      simp [hfd]
